import Mathlib

/-!
Verification of the `mopa-revised` crate (src/lib.rs), a shallow embedding.

The crate provides runtime type identity for trait objects: a blanket
`Any` capability exposing `__get_type_id`, and the `mopafy!` macro that
generates `is`, `downcast_ref`, `downcast_mut` (selector `core`),
`downcast_box` (selector `boxed`) and `downcast_arc` (selector `arc`),
each with a checked and an unchecked variant.

Embedding choices:

* A concrete `Rust` type with a static bound is represented by its
  identity, `ConcreteType`, a wrapper around a numeric id; the host
  guarantee that `TypeId::of` never collides across distinct types is
  modelled by `TypeId.of` being the projection of that id.
* A runtime value is a `DynValue`: its concrete type plus its raw
  payload bits. The blanket impl of `__get_type_id` (lib.rs lines
  96-100) is the function `DynValue.__get_type_id`.
* References and boxes point into a heap `Mem`, a list of `DynValue`
  indexed by address, so that claims about addresses, copies and
  allocations are statable. `Arc` allocations additionally carry a
  strong count in an `ArcHeap`; operations on them pass the heap
  explicitly, so heap preservation is a theorem, not a triviality.
* The unchecked variants are raw pointer casts in the source; they are
  embedded as the address-preserving rewraps they compile to, and
  their safety precondition (the payload really has type `T`) is the
  explicit predicate proved at every guarded call site.
* The `mopafy!` macro arms (lib.rs lines 154-264) are embedded as the
  function `mopafy` from a selector to the list of generated methods.
-/

namespace Mopa

/-- Model of `core::any::TypeId`: the identity token of a concrete type. -/
abbrev TypeId := Nat

/-- A concrete Rust type satisfying the static bound, identified by its
nominal identity. Distinct concrete types have distinct ids: this is the
host guarantee that `TypeId` never collides, assumed by the crate. -/
structure ConcreteType where
  id : Nat
deriving DecidableEq, Repr

/-- The token `TypeId::of::<T>()` of a concrete type `T`. -/
def TypeId.of (t : ConcreteType) : TypeId := t.id

/-- A runtime value as seen through a trait object: its concrete type
(held by the vtable) and its raw payload bits. -/
structure DynValue where
  ty : ConcreteType
  payload : Nat
deriving DecidableEq, Repr

/-- The blanket impl (lib.rs 96-100): for every type `T` with the static
bound, `__get_type_id(&self)` returns `TypeId::of::<T>()`. It is defined
on every `DynValue` with no per-type opt-in. -/
def DynValue.__get_type_id (v : DynValue) : TypeId := TypeId.of v.ty

/-- A raw address into the heap. -/
abbrev Addr := Nat

/-- The heap holding values behind references and boxes: address `a`
holds the value at index `a`. -/
abbrev Mem := List DynValue

/-- A reference statically typed as some concrete `T`: the result of a
downcast. Only the address is runtime data. -/
structure TypedRef where
  addr : Addr
deriving DecidableEq, Repr

/-- Dereference a typed reference: read the value it points at. -/
def TypedRef.read (m : Mem) (r : TypedRef) : Option DynValue := m[r.addr]?

/-- `is::<T>()` (lib.rs 219-221): compares `TypeId::of::<T>()` with
`__get_type_id` of the referenced value. -/
def is (m : Mem) (a : Addr) (T : ConcreteType) : Bool :=
  match m[a]? with
  | some v => TypeId.of T == v.__get_type_id
  | none => false

/-- `downcast_ref_unchecked::<T>()` (lib.rs 239-241): the pointer cast
`&*(self as *const Self as *const T)`, a reference to the same address
reinterpreted at type `T`. -/
def downcast_ref_unchecked (a : Addr) (_T : ConcreteType) : TypedRef := ⟨a⟩

/-- `downcast_ref::<T>()` (lib.rs 226-234): `Some` of the unchecked cast
when `is::<T>()` holds, else `None`. -/
def downcast_ref (m : Mem) (a : Addr) (T : ConcreteType) : Option TypedRef :=
  if is m a T then some (downcast_ref_unchecked a T) else none

/-- `downcast_mut_unchecked::<T>()` (lib.rs 259-261): the pointer cast
`&mut *(self as *mut Self as *mut T)`. -/
def downcast_mut_unchecked (a : Addr) (_T : ConcreteType) : TypedRef := ⟨a⟩

/-- `downcast_mut::<T>()` (lib.rs 246-254): `Some` of the unchecked cast
when `is::<T>()` holds, else `None`. -/
def downcast_mut (m : Mem) (a : Addr) (T : ConcreteType) : Option TypedRef :=
  if is m a T then some (downcast_mut_unchecked a T) else none

/-- An owned box handle `Box<dyn Trait>`: owns the allocation at `addr`. -/
structure BoxHandle where
  addr : Addr
deriving DecidableEq, Repr

/-- A box retyped as a concrete `T`, the success result of a box downcast. -/
structure TypedBox where
  addr : Addr
deriving DecidableEq, Repr

/-- `downcast_box_unchecked::<T>()` (lib.rs 185-187):
`Box::from_raw(Box::into_raw(self) as *mut T)`, the same raw allocation
pointer rewrapped at type `T` with no copy and no new allocation. -/
def downcast_box_unchecked (b : BoxHandle) (_T : ConcreteType) : TypedBox := ⟨b.addr⟩

/-- `downcast_box::<T>()` (lib.rs 172-180): `Ok` of the unchecked rewrap
when `is::<T>()` holds, else `Err` returning the original box. -/
def downcast_box (m : Mem) (b : BoxHandle) (T : ConcreteType) : Except BoxHandle TypedBox :=
  if is m b.addr T then Except.ok (downcast_box_unchecked b T) else Except.error b

/-- An `Arc` allocation: the shared strong count plus the stored value. -/
structure ArcAlloc where
  strong : Nat
  value : DynValue
deriving DecidableEq, Repr

/-- The heap of reference-counted allocations. -/
abbrev ArcHeap := List ArcAlloc

/-- A shared handle `Arc<dyn Trait>` into the `Arc` heap. -/
structure ArcHandle where
  addr : Addr
deriving DecidableEq, Repr

/-- A shared handle retyped as a concrete `T`. -/
structure TypedArc where
  addr : Addr
deriving DecidableEq, Repr

/-- The strong count of the allocation a handle points at. -/
def Arc.strong_count (h : ArcHeap) (a : ArcHandle) : Nat :=
  match h[a.addr]? with
  | some al => al.strong
  | none => 0

/-- `this.is::<T>()` through an `Arc`: derefs the handle and compares
type tokens, as the generated `downcast_arc` does (lib.rs 197). -/
def Arc.is (h : ArcHeap) (a : ArcHandle) (T : ConcreteType) : Bool :=
  match h[a.addr]? with
  | some al => TypeId.of T == al.value.__get_type_id
  | none => false

/-- `Arc::into_raw`: consumes the handle and yields the raw allocation
pointer, leaving the strong count untouched. -/
def Arc.into_raw (h : ArcHeap) (a : ArcHandle) : ArcHeap × Addr := (h, a.addr)

/-- `Arc::from_raw` at type `T`: rewraps a raw allocation pointer as a
typed shared handle, leaving the strong count untouched. -/
def Arc.from_raw (h : ArcHeap) (p : Addr) : ArcHeap × TypedArc := (h, ⟨p⟩)

/-- `downcast_arc_unchecked::<T>()` (lib.rs 207-209):
`Arc::from_raw(Arc::into_raw(this) as *mut T)`. -/
def downcast_arc_unchecked (h : ArcHeap) (a : ArcHandle) (_T : ConcreteType) :
    ArcHeap × TypedArc :=
  let raw := Arc.into_raw h a
  Arc.from_raw raw.1 raw.2

/-- `downcast_arc::<T>()` (lib.rs 196-204): `Ok` of the unchecked rewrap
when the payload type matches, else `Err` returning the original handle. -/
def downcast_arc (h : ArcHeap) (a : ArcHandle) (T : ConcreteType) :
    ArcHeap × Except ArcHandle TypedArc :=
  if Arc.is h a T then
    let r := downcast_arc_unchecked h a T
    (r.1, Except.ok r.2)
  else
    (h, Except.error a)

/-- The methods the `mopafy!` macro can generate. -/
inductive MopaMethod where
  | is
  | downcast_ref
  | downcast_ref_unchecked
  | downcast_mut
  | downcast_mut_unchecked
  | downcast_box
  | downcast_box_unchecked
  | downcast_arc
  | downcast_arc_unchecked
deriving DecidableEq, Repr

/-- The invocation forms of `mopafy!` (lib.rs 154-264). -/
inductive Selector where
  | bare
  | onlyCore
  | core
  | boxed
  | arc
deriving DecidableEq, Repr

/-- The reference family, generated by the `core` arm (lib.rs 214-263). -/
def coreMethods : List MopaMethod :=
  [MopaMethod.is, MopaMethod.downcast_ref, MopaMethod.downcast_ref_unchecked,
   MopaMethod.downcast_mut, MopaMethod.downcast_mut_unchecked]

/-- The owned family, generated by the `boxed` arm (lib.rs 167-189). -/
def boxedMethods : List MopaMethod :=
  [MopaMethod.downcast_box, MopaMethod.downcast_box_unchecked]

/-- The shared family, generated by the `arc` arm (lib.rs 192-211). -/
def arcMethods : List MopaMethod :=
  [MopaMethod.downcast_arc, MopaMethod.downcast_arc_unchecked]

/-- The expansion of each `mopafy!` arm into generated methods: the bare
arm expands to the `core` arm followed by the `boxed` arm, and the
`only core` arm expands to the `core` arm (lib.rs 156-164). -/
def mopafy : Selector → List MopaMethod
  | Selector.bare => coreMethods ++ boxedMethods
  | Selector.onlyCore => coreMethods
  | Selector.core => coreMethods
  | Selector.boxed => boxedMethods
  | Selector.arc => arcMethods

/-- Two concrete types are identical exactly when their identity tokens
match: the host collision-freedom guarantee of `TypeId`. -/
theorem ConcreteType.eq_iff (T U : ConcreteType) : T = U ↔ T.id = U.id := by
  cases T; cases U; simp

/-- C1: for a value of concrete type `T` stored behind a trait-object
handle, `is::<S>()` returns true exactly when `S` is that concrete type;
in particular `is::<T>()` is true and `is::<U>()` is false for any
distinct `U`, and `is` is a pure function of the handle, so it has no
side effects. -/
theorem is_true_iff_exact_type (m : Mem) (a : Addr) (v : DynValue)
    (T U : ConcreteType) (hv : m[a]? = some v) (hT : v.ty = T) (hne : T ≠ U) :
    (∀ S : ConcreteType, is m a S = true ↔ S = v.ty) ∧
    is m a T = true ∧ is m a U = false := by
  have key : ∀ S : ConcreteType, is m a S = true ↔ S = v.ty := by
    intro S
    simp [is, hv, DynValue.__get_type_id, TypeId.of, ConcreteType.eq_iff]
  refine ⟨key, (key T).2 hT.symm, ?_⟩
  rw [Bool.eq_false_iff]
  intro hb
  exact hne (((key U).1 hb).trans hT).symm

/-- Witness for C1 at a one-value heap holding a payload of type id 0. -/
theorem is_true_iff_exact_type_witness :
    is [⟨⟨0⟩, 13⟩] 0 ⟨0⟩ = true ∧ is [⟨⟨0⟩, 13⟩] 0 ⟨1⟩ = false :=
  (is_true_iff_exact_type [⟨⟨0⟩, 13⟩] 0 ⟨⟨0⟩, 13⟩ ⟨0⟩ ⟨1⟩ rfl rfl (by decide)).2

/-- C2: the identity token operation is defined on every value by the
blanket rule with no per-type opt-in, is deterministic (all values of
one concrete type yield one token), and yields equal tokens exactly for
identical concrete types. -/
theorem get_type_id_blanket_det_inj :
    (∀ v : DynValue, v.__get_type_id = TypeId.of v.ty) ∧
    (∀ v w : DynValue, v.ty = w.ty → v.__get_type_id = w.__get_type_id) ∧
    (∀ v w : DynValue, v.__get_type_id = w.__get_type_id ↔ v.ty = w.ty) := by
  refine ⟨fun v => rfl, fun v w h => by simp [DynValue.__get_type_id, h], fun v w => ?_⟩
  simp [DynValue.__get_type_id, TypeId.of, ConcreteType.eq_iff]

/-- Witness for C2: two distinct values of the same concrete type report
the same token. -/
theorem get_type_id_blanket_det_inj_witness :
    DynValue.__get_type_id ⟨⟨2⟩, 5⟩ = DynValue.__get_type_id ⟨⟨2⟩, 9⟩ :=
  get_type_id_blanket_det_inj.2.1 ⟨⟨2⟩, 5⟩ ⟨⟨2⟩, 9⟩ rfl

/-- C3: `downcast_ref::<T>()` returns `Some` of a reference to the
payload at its original address (no copy, no move) iff `is::<T>()`
holds, and `None` otherwise; `downcast_mut` behaves analogously with an
exclusive reference; the only mismatch report is the absent value. -/
theorem downcast_ref_mut_some_iff_is (m : Mem) (a : Addr) (T : ConcreteType) :
    ((downcast_ref m a T).isSome ↔ is m a T = true) ∧
    (downcast_ref m a T = none ↔ is m a T = false) ∧
    (∀ r, downcast_ref m a T = some r → r.addr = a) ∧
    ((downcast_mut m a T).isSome ↔ is m a T = true) ∧
    (downcast_mut m a T = none ↔ is m a T = false) ∧
    (∀ r, downcast_mut m a T = some r → r.addr = a) := by
  by_cases hb : is m a T <;>
    simp [downcast_ref, downcast_mut, downcast_ref_unchecked, downcast_mut_unchecked, hb]

/-- Witness for C3: on a matching heap the returned reference points at
the original address. -/
theorem downcast_ref_mut_some_iff_is_witness :
    TypedRef.addr ⟨0⟩ = 0 :=
  (downcast_ref_mut_some_iff_is [⟨⟨0⟩, 13⟩] 0 ⟨0⟩).2.2.1 ⟨0⟩ (by decide)

/-- C4: `downcast_box::<U>()` on a `T`-payload box with `U ≠ T` returns
`Err` holding the original box; the heap is untouched, so reading the
payload through `downcast_ref` of the true type still yields the
original value; with the matching type the box is retyped as `Ok`. -/
theorem downcast_box_mismatch_preserves (m : Mem) (b : BoxHandle) (v : DynValue)
    (T U : ConcreteType) (hv : m[b.addr]? = some v) (hT : v.ty = T) (hne : T ≠ U) :
    downcast_box m b U = Except.error b ∧
    downcast_ref m b.addr T = some ⟨b.addr⟩ ∧
    TypedRef.read m ⟨b.addr⟩ = some v ∧
    downcast_box m b T = Except.ok ⟨b.addr⟩ := by
  have hid : ¬ U.id = T.id := fun h => hne ((ConcreteType.eq_iff T U).2 h.symm)
  have hisT : is m b.addr T = true := by
    simp [is, hv, DynValue.__get_type_id, TypeId.of, hT]
  have hisU : is m b.addr U = false := by
    simp [is, hv, DynValue.__get_type_id, TypeId.of, hT]
    exact hid
  refine ⟨?_, ?_, ?_, ?_⟩
  · simp [downcast_box, hisU]
  · simp [downcast_ref, downcast_ref_unchecked, hisT]
  · simp [TypedRef.read, hv]
  · simp [downcast_box, downcast_box_unchecked, hisT]

/-- Witness for C4 on a box holding a payload of type id 0, probed with
the mismatching type id 1 and the matching type id 0. -/
theorem downcast_box_mismatch_preserves_witness :
    downcast_box [⟨⟨0⟩, 13⟩] ⟨0⟩ ⟨1⟩ = Except.error ⟨0⟩ ∧
    downcast_ref [⟨⟨0⟩, 13⟩] 0 ⟨0⟩ = some ⟨0⟩ ∧
    TypedRef.read [⟨⟨0⟩, 13⟩] ⟨0⟩ = some ⟨⟨0⟩, 13⟩ ∧
    downcast_box [⟨⟨0⟩, 13⟩] ⟨0⟩ ⟨0⟩ = Except.ok ⟨0⟩ :=
  downcast_box_mismatch_preserves [⟨⟨0⟩, 13⟩] ⟨0⟩ ⟨⟨0⟩, 13⟩ ⟨0⟩ ⟨1⟩ rfl rfl (by decide)

/-- C5: `downcast_arc::<T>()` never modifies the `Arc` heap, so the
allocation and every strong count are preserved: on a match it returns
the same allocation retyped as a shared handle, on a mismatch the
original handle, and in both cases the strong count after the call
equals the strong count before it. -/
theorem downcast_arc_preserves_counts (h : ArcHeap) (a : ArcHandle) (T : ConcreteType) :
    (downcast_arc h a T).1 = h ∧
    Arc.strong_count (downcast_arc h a T).1 a = Arc.strong_count h a ∧
    (Arc.is h a T = true → (downcast_arc h a T).2 = Except.ok ⟨a.addr⟩) ∧
    (Arc.is h a T = false → (downcast_arc h a T).2 = Except.error a) := by
  by_cases hb : Arc.is h a T <;>
    simp [downcast_arc, downcast_arc_unchecked, Arc.into_raw, Arc.from_raw, hb]

/-- Witness for C5 on a heap whose single allocation has strong count 3:
the downcast succeeds and returns the same allocation. -/
theorem downcast_arc_preserves_counts_witness :
    (downcast_arc [⟨3, ⟨⟨0⟩, 13⟩⟩] ⟨0⟩ ⟨0⟩).2 = Except.ok ⟨0⟩ :=
  (downcast_arc_preserves_counts [⟨3, ⟨⟨0⟩, 13⟩⟩] ⟨0⟩ ⟨0⟩).2.2.1 (by decide)

/-- C6: on a handle whose payload has concrete type `T`, the checked
`downcast_ref::<T>()` returns precisely the unchecked cast, a reference
whose address equals the original address: no copy is made and the
checked and unchecked variants agree whenever `is::<T>()` is true. -/
theorem downcast_ref_checked_unchecked_agree (m : Mem) (a : Addr) (T : ConcreteType)
    (hT : is m a T = true) :
    downcast_ref m a T = some (downcast_ref_unchecked a T) ∧
    (downcast_ref_unchecked a T).addr = a :=
  ⟨by simp [downcast_ref, hT], rfl⟩

/-- Witness for C6 at a one-value heap of type id 5. -/
theorem downcast_ref_checked_unchecked_agree_witness :
    downcast_ref [⟨⟨5⟩, 7⟩] 0 ⟨5⟩ = some (downcast_ref_unchecked 0 ⟨5⟩) :=
  (downcast_ref_checked_unchecked_agree [⟨⟨5⟩, 7⟩] 0 ⟨5⟩ (by decide)).1

/-- C7: every checked operation is a total function whose result is one
of exactly two benign outcomes, success or the mismatch report; there is
no third (panic or abort) outcome anywhere on the checked surface. -/
theorem checked_surface_total (m : Mem) (a : Addr) (b : BoxHandle)
    (h : ArcHeap) (c : ArcHandle) (T : ConcreteType) :
    (is m a T = true ∨ is m a T = false) ∧
    (downcast_ref m a T = some ⟨a⟩ ∨ downcast_ref m a T = none) ∧
    (downcast_mut m a T = some ⟨a⟩ ∨ downcast_mut m a T = none) ∧
    (downcast_box m b T = Except.ok ⟨b.addr⟩ ∨ downcast_box m b T = Except.error b) ∧
    (downcast_arc h c T = (h, Except.ok ⟨c.addr⟩) ∨
      downcast_arc h c T = (h, Except.error c)) := by
  refine ⟨?_, ?_, ?_, ?_, ?_⟩
  · cases is m a T <;> simp
  · by_cases hb : is m a T <;> simp [downcast_ref, downcast_ref_unchecked, hb]
  · by_cases hb : is m a T <;> simp [downcast_mut, downcast_mut_unchecked, hb]
  · by_cases hb : is m b.addr T <;> simp [downcast_box, downcast_box_unchecked, hb]
  · by_cases hb : Arc.is h c T <;>
      simp [downcast_arc, downcast_arc_unchecked, Arc.into_raw, Arc.from_raw, hb]

/-- C8: the bare arm `mopafy!(Trait)` generates exactly the union of the
reference family and the owned family, none of the shared family, and
the `only core` arm generates exactly the methods of the `core` arm. -/
theorem mopafy_selector_composition :
    mopafy Selector.bare = mopafy Selector.core ++ mopafy Selector.boxed ∧
    (∀ mth : MopaMethod,
      mth ∈ mopafy Selector.bare ↔
        (mth ∈ mopafy Selector.core ∨ mth ∈ mopafy Selector.boxed)) ∧
    MopaMethod.downcast_arc ∉ mopafy Selector.bare ∧
    MopaMethod.downcast_arc_unchecked ∉ mopafy Selector.bare ∧
    mopafy Selector.onlyCore = mopafy Selector.core := by
  refine ⟨rfl, fun mth => List.mem_append, by decide, by decide, rfl⟩

/-- Witness for C8: the `only core` arm and the `core` arm generate the
same method list. -/
theorem mopafy_selector_composition_witness :
    mopafy Selector.onlyCore = mopafy Selector.core :=
  mopafy_selector_composition.2.2.2.2

/-- C9: at every guarded call site of an unchecked reinterpretation, the
guard `is::<T>()` being true establishes the precondition of the
unchecked variant, namely that the payload behind the handle has
concrete runtime type exactly `T`; and under a false guard each checked
operation returns its failure value, so the reinterpretation is never
reached on a mismatched type. -/
theorem unchecked_sites_guarded (m : Mem) (a : Addr) (b : BoxHandle)
    (h : ArcHeap) (c : ArcHandle) (T : ConcreteType) :
    (is m a T = true → ∃ v, m[a]? = some v ∧ v.ty = T) ∧
    (is m a T = false → downcast_ref m a T = none ∧ downcast_mut m a T = none) ∧
    (is m b.addr T = false → downcast_box m b T = Except.error b) ∧
    (Arc.is h c T = true → ∃ al, h[c.addr]? = some al ∧ al.value.ty = T) ∧
    (Arc.is h c T = false → downcast_arc h c T = (h, Except.error c)) := by
  refine ⟨?_, ?_, ?_, ?_, ?_⟩
  · intro hb
    cases hv : m[a]? with
    | none => simp [is, hv] at hb
    | some v =>
        simp [is, hv, DynValue.__get_type_id, TypeId.of] at hb
        exact ⟨v, rfl, (ConcreteType.eq_iff v.ty T).2 hb.symm⟩
  · intro hb
    simp [downcast_ref, downcast_mut, hb]
  · intro hb
    simp [downcast_box, hb]
  · intro hb
    cases hv : h[c.addr]? with
    | none => simp [Arc.is, hv] at hb
    | some al =>
        simp [Arc.is, hv, DynValue.__get_type_id, TypeId.of] at hb
        exact ⟨al, rfl, (ConcreteType.eq_iff al.value.ty T).2 hb.symm⟩
  · intro hb
    simp [downcast_arc, hb]

/-- Witness for C9: on a mismatched type both reference downcasts report
the absent value. -/
theorem unchecked_sites_guarded_witness :
    downcast_ref [⟨⟨0⟩, 13⟩] 0 ⟨1⟩ = none ∧ downcast_mut [⟨⟨0⟩, 13⟩] 0 ⟨1⟩ = none :=
  (unchecked_sites_guarded [⟨⟨0⟩, 13⟩] 0 ⟨0⟩ [] ⟨0⟩ ⟨1⟩).2.1 (by decide)

/-- C10: a successful `downcast_box::<T>()` returns a box holding the
same raw allocation address as the original box, and the unchecked
rewrap preserves the address unconditionally: the payload is neither
copied nor reallocated. -/
theorem downcast_box_same_allocation (m : Mem) (b : BoxHandle) (T : ConcreteType)
    (hT : is m b.addr T = true) :
    downcast_box m b T = Except.ok ⟨b.addr⟩ ∧
    (downcast_box_unchecked b T).addr = b.addr :=
  ⟨by simp [downcast_box, downcast_box_unchecked, hT], rfl⟩

/-- Witness for C10 on a matching box downcast. -/
theorem downcast_box_same_allocation_witness :
    downcast_box [⟨⟨0⟩, 13⟩] ⟨0⟩ ⟨0⟩ = Except.ok ⟨0⟩ :=
  (downcast_box_same_allocation [⟨⟨0⟩, 13⟩] ⟨0⟩ ⟨0⟩ (by decide)).1

end Mopa
